import Mathlib

/-!
Verification of the image-to-tex post-processing core.

This file gives a shallow embedding, in Lean, of the pure string-processing
logic of the repository: `utils/latex_formatter.py`, the validation logic of
`utils/image_handler.py`, the fallback control flow of
`core/vision_client.py`, and the result assembly of `core/converter.py`.
Python strings are modelled as Lean `String`s (with helper operations on the
underlying `List Char` mirroring Python's `strip`, `lower`, `replace`,
substring test, and `startswith`), and exceptions as `Except`.
-/

namespace ImageToTex

/-- Characters stripped by Python `str.strip()` (ASCII whitespace). -/
def isPySpace (c : Char) : Bool :=
  c == ' ' || c == '\t' || c == '\n' || c == '\r' || c == '\x0b' || c == '\x0c'

/-- Python `str.strip()` on a character list. -/
def pyStripL (l : List Char) : List Char :=
  ((l.dropWhile isPySpace).reverse.dropWhile isPySpace).reverse

/-- Python `str.strip()`. -/
def pyStrip (s : String) : String :=
  String.mk (pyStripL s.data)

/-- Python `str.lower()` (ASCII; all inputs of interest are ASCII). -/
def lowerS (s : String) : String :=
  String.mk (s.data.map Char.toLower)

/-- Boolean prefix test on character lists (Python `startswith`). -/
def isPre : List Char → List Char → Bool
  | [], _ => true
  | _ :: _, [] => false
  | c :: cs, x :: xs => c == x && isPre cs xs

/-- Python `str.startswith`. -/
def startsWithS (p s : String) : Bool :=
  isPre p.data s.data

/-- Boolean substring test on character lists (Python `in` for strings,
for a non-empty pattern). -/
def hasSub (p : List Char) : List Char → Bool
  | [] => false
  | c :: ts => isPre p (c :: ts) || hasSub p ts

/-- Python `pattern in s` (non-empty pattern). -/
def hasSubS (p s : String) : Bool :=
  hasSub p.data s.data

/-- One fuel-indexed pass removing every non-overlapping occurrence of `pat`,
left to right (Python `str.replace(pat, "")` / `re.sub` on a literal
pattern). The fuel is instantiated with the length of the text, which
bounds the number of steps. -/
def removeAllL (pat : List Char) : Nat → List Char → List Char
  | _, [] => []
  | 0, l => l
  | fuel + 1, c :: cs =>
    if isPre pat (c :: cs) then removeAllL pat fuel ((c :: cs).drop pat.length)
    else c :: removeAllL pat fuel cs

/-- Python `s.replace(pat, "")` for a non-empty literal `pat`. -/
def removeAllS (s pat : String) : String :=
  String.mk (removeAllL pat.data s.data.length s.data)

/-- Count of a character in a string (Python `str.count` of a
one-character pattern). -/
def countChar (s : String) (c : Char) : Nat :=
  s.data.count c

/-- Python regex `\w`: word characters (ASCII letters, digits, underscore). -/
def isWordChar (c : Char) : Bool :=
  c.isAlphanum || c == '_'

/-- Fuel-indexed scan collecting the group of every match of the regex
`PAT\{(\w+)\}` (where `PAT` is `\begin` or `\end`), left to right and
non-overlapping, as `re.findall` does: at each position, a match requires
the literal opener, a non-empty maximal run of word characters, and a
closing brace. -/
def scanEnvsAux (opener : List Char) : Nat → List Char → List String
  | _, [] => []
  | 0, _ => []
  | fuel + 1, c :: cs =>
    let l := c :: cs
    if isPre opener l then
      let rest := l.drop opener.length
      let w := rest.takeWhile isWordChar
      let r := rest.dropWhile isWordChar
      if w ≠ [] ∧ r.head? = some '\x7d' then
        String.mk w :: scanEnvsAux opener fuel (r.drop 1)
      else
        scanEnvsAux opener fuel cs
    else
      scanEnvsAux opener fuel cs

/-- All captured names of `re.findall(r"\begin\{(\w+)\}", s)`. -/
def scanBegins (s : String) : List String :=
  scanEnvsAux "\\begin\x7b".data s.data.length s.data

/-- All captured names of `re.findall(r"\end\{(\w+)\}", s)`. -/
def scanEnds (s : String) : List String :=
  scanEnvsAux "\\end\x7b".data s.data.length s.data

/-- The content types of `latex_formatter.ContentType`. -/
inductive ContentType
  | equation
  | table
  | diagram
  | document
  | unknown
  deriving DecidableEq, Repr

/-- `LaTeXFormatter.DOCUMENT_PACKAGES`. -/
def DOCUMENT_PACKAGES : List String :=
  ["\\usepackage\x7bamsmath\x7d",
   "\\usepackage\x7bamssymb\x7d",
   "\\usepackage\x7bamsfonts\x7d",
   "\\usepackage\x7bgraphicx\x7d",
   "\\usepackage\x7bbooktabs\x7d",
   "\\usepackage\x7btikz\x7d"]

/-- The delimiter-stripping pass at the start of
`LaTeXFormatter.wrap_equation`: strip, remove every occurrence of
the delimiters in the order of the Python loop, strip again. -/
def cleanMathCode (s : String) : String :=
  pyStrip
    (removeAllS (removeAllS (removeAllS (removeAllS (pyStrip s) "\\[") "\\]") "$$") "$")

/-- The display (non-inline) branch of `LaTeXFormatter.wrap_equation`,
applied to the already delimiter-stripped code. -/
def wrapDisplay (c : String) : String :=
  if hasSubS "\\\\" c || hasSubS "align" (lowerS c) then
    if startsWithS "\\begin\x7balign" c then c
    else "\\begin\x7balign\x7d\n" ++ c ++ "\n\\end\x7balign\x7d"
  else
    if startsWithS "\\begin\x7bequation" c then c
    else "\\begin\x7bequation\x7d\n" ++ c ++ "\n\\end\x7bequation\x7d"

/-- `LaTeXFormatter.wrap_equation`: strip pre-existing delimiters, then
wrap inline as `$...$` or dispatch to the display branch. -/
def wrap_equation (latex_code : String) (inline : Bool) : String :=
  match inline with
  | true => "$" ++ cleanMathCode latex_code ++ "$"
  | false => wrapDisplay (cleanMathCode latex_code)

/-- Python truthiness of an optional string (`if title:`): `None` and the
empty string are falsy. -/
def optTruthy : Option String → Bool
  | none => false
  | some s => !s.isEmpty

/-- `LaTeXFormatter.create_full_document`. -/
def create_full_document (latex_content : String)
    (title author : Option String) (document_class : String) : String :=
  let doc := "\\documentclass\x7b" ++ document_class ++ "\x7d\n\n"
  let doc := DOCUMENT_PACKAGES.foldl (fun d p => d ++ p ++ "\n") doc
  let doc := doc ++ "\n\\begin\x7bdocument\x7d\n\n"
  let doc :=
    if optTruthy title then
      let doc := doc ++ "\\title\x7b" ++ title.getD "" ++ "\x7d\n"
      let doc :=
        if optTruthy author then
          doc ++ "\\author\x7b" ++ author.getD "" ++ "\x7d\n"
        else doc
      doc ++ "\\maketitle\n\n"
    else doc
  let doc := doc ++ latex_content ++ "\n\n"
  doc ++ "\\end\x7bdocument\x7d\n"

/-- The fence-removal passes at the start of
`LaTeXFormatter.extract_latex_code` (four `re.sub` calls on literal
patterns, in order). -/
def stripFences (text : String) : String :=
  removeAllS
    (removeAllS (removeAllS (removeAllS text "```latex\n") "```tex\n") "```\n") "```"

/-- The explanatory phrases skipped before LaTeX starts. -/
def skipPhrases : List String :=
  ["here is", "here\x27s", "the latex", "this is",
   "i\x27ve converted", "converted to", "latex code:",
   "explanation:", "note:"]

/-- Whether a line triggers LaTeX capture: its stripped form starts with a
backslash or a dollar sign. -/
def lineTriggers (line : String) : Bool :=
  (pyStripL line.data).head? = some '\\' || (pyStripL line.data).head? = some '$'

/-- Whether a line matches one of the skip phrases (checked on the
lowered, stripped line). -/
def lineSkips (line : String) : Bool :=
  skipPhrases.any (fun p => hasSubS p (pyStrip (lowerS line)))

/-- Split a character list at every newline (Python `str.split("\n")`:
empty pieces are kept, the empty string yields one empty piece). -/
def splitOnNl : List Char → List (List Char)
  | [] => [[]]
  | c :: cs =>
    if c = '\n' then [] :: splitOnNl cs
    else
      match splitOnNl cs with
      | [] => [[c]]
      | l :: ls => (c :: l) :: ls

/-- Python `text.split("\n")`. -/
def splitLines (s : String) : List String :=
  (splitOnNl s.data).map String.mk

/-- Python `"\n".join(lines)`. -/
def joinNl : List String → String
  | [] => ""
  | [l] => l
  | l :: ls => l ++ "\n" ++ joinNl ls

/-- The line loop of `extract_latex_code`: accumulates captured lines in
reverse, tracking the `started` flag. -/
def extractLoop : List String → Bool → List String → List String
  | [], _, acc => acc.reverse
  | line :: rest, started, acc =>
    if !started && lineSkips line then
      extractLoop rest started acc
    else
      let started2 := started || lineTriggers line
      extractLoop rest started2 (if started2 then line :: acc else acc)

/-- `LaTeXFormatter.extract_latex_code`. -/
def extract_latex_code (text : String) : String :=
  let text2 := stripFences text
  let lines := splitLines text2
  let latex_lines := extractLoop lines false []
  let result := pyStrip (joinNl latex_lines)
  if result.isEmpty then pyStrip text2 else result

/-- Whether no line of the fence-stripped text triggers LaTeX capture
(no line whose stripped form begins with a backslash or dollar sign). -/
def noTriggerLines (text : String) : Bool :=
  (splitLines (stripFences text)).all (fun l => !lineTriggers l)

/-- `LaTeXFormatter.detect_content_type`. -/
def detect_content_type (latex_code : String) : ContentType :=
  let l := lowerS latex_code
  if hasSubS "\\documentclass" l || hasSubS "\\maketitle" l then
    ContentType.document
  else if hasSubS "\\begin\x7btable" l || hasSubS "\\begin\x7btabular" l then
    ContentType.table
  else if hasSubS "\\begin\x7btikz" l || hasSubS "\\begin\x7bfigure" l
      || hasSubS "\\includegraphics" l then
    ContentType.diagram
  else if hasSubS "\\begin\x7bequation" l || hasSubS "\\begin\x7balign" l
      || hasSubS "\\[" l || hasSubS "$" l || hasSubS "\\frac" l
      || hasSubS "\\int" l || hasSubS "\\sum" l || hasSubS "\\alpha" l then
    ContentType.equation
  else
    ContentType.unknown

/-- `LaTeXFormatter.validate_latex`. -/
def validate_latex (latex_code : String) : Bool × Option String :=
  if countChar latex_code '\x7b' ≠ countChar latex_code '\x7d' then
    (false, some "Unbalanced braces: \x7b\x7d count mismatch")
  else if countChar latex_code '[' ≠ countChar latex_code ']' then
    (false, some "Unbalanced brackets: [] count mismatch")
  else if (scanBegins latex_code).length ≠ (scanEnds latex_code).length then
    (false,
      some "Unbalanced environments: \\begin\x7b\x7d and \\end\x7b\x7d count mismatch")
  else
    match (scanBegins latex_code).find?
        (fun env => !(scanEnds latex_code).contains env) with
    | some env =>
      (false, some ("Environment \x27" ++ env ++ "\x27 opened but not closed"))
    | none => (true, none)

/-- The fixed text `create_full_document` emits before the content when no
title is given (documentclass line for class `article`, the six package
lines, and the `document` opener). -/
def noTitleHeader : String :=
  "\\documentclass\x7barticle\x7d\n\n\\usepackage\x7bamsmath\x7d\n\\usepackage\x7bamssymb\x7d\n\\usepackage\x7bamsfonts\x7d\n\\usepackage\x7bgraphicx\x7d\n\\usepackage\x7bbooktabs\x7d\n\\usepackage\x7btikz\x7d\n\n\\begin\x7bdocument\x7d\n\n"

/-- `noTitleHeader` without its final newline (used to expose the last
character at the junction with the content). -/
def noTitleHeaderInit : String :=
  "\\documentclass\x7barticle\x7d\n\n\\usepackage\x7bamsmath\x7d\n\\usepackage\x7bamssymb\x7d\n\\usepackage\x7bamsfonts\x7d\n\\usepackage\x7bgraphicx\x7d\n\\usepackage\x7bbooktabs\x7d\n\\usepackage\x7btikz\x7d\n\n\\begin\x7bdocument\x7d\n"

/-- The fixed text `create_full_document` emits after the content. -/
def docFooter : String := "\n\n\\end\x7bdocument\x7d\n"

/-- Sequential containment: match each pattern in turn, resuming the next
search after the end of the previous match. Used to state that pieces of a
generated document occur in a given order. -/
def dropAfterSub (p : List Char) : List Char → Option (List Char)
  | [] => none
  | c :: ts => if isPre p (c :: ts) then some ((c :: ts).drop p.length)
    else dropAfterSub p ts

/-- Whether the patterns all occur in the text, in order and without
overlap. -/
def inOrderL : List (List Char) → List Char → Bool
  | [], _ => true
  | p :: ps, t =>
    match dropAfterSub p t with
    | some r => inOrderL ps r
    | none => false

/-- String version of `inOrderL`. -/
def inOrderS (ps : List String) (s : String) : Bool :=
  inOrderL (ps.map String.data) s.data

/-- `vision_client.ModelProvider`. -/
inductive ModelProvider
  | claude
  | openai
  | noneP
  deriving DecidableEq, Repr

/-- Result of one call against an external vision provider: the provider
either returns a completion text or raises an exception carrying a
message. A call environment maps each concrete provider to its outcome. -/
def CallEnv := ModelProvider → Except String String

/-- The per-provider dispatch inside `VisionClient.analyze_image`: only
`claude` and `openai` have a `_call_*` branch; for provider `none` no
branch runs and control falls through. -/
def callFor (env : CallEnv) : ModelProvider → Option (Except String String)
  | ModelProvider.claude => some (env ModelProvider.claude)
  | ModelProvider.openai => some (env ModelProvider.openai)
  | ModelProvider.noneP => none

/-- The fallback block of `VisionClient.analyze_image`: entered with the
guard `use_fallback and fallback != NONE` already true; dispatches on the
fallback provider, returning its result, and on an exception raises the
aggregated `VisionClientError`. When the fallback is `none` (impossible
under the guard) control reaches the final raise. -/
def fallbackStep (env : CallEnv) (fallback : ModelProvider) : Except String String :=
  match callFor env fallback with
  | some (Except.ok s) => Except.ok s
  | some (Except.error e) =>
    Except.error ("Both primary and fallback models failed. Last error: " ++ e)
  | none => Except.error "No models available or all attempts failed"

/-- `VisionClient.analyze_image`: try the primary provider; on an
exception, if fallback is disallowed or unconfigured raise immediately,
else run the fallback block; when the primary provider is `none` the try
block does nothing and control reaches the fallback section directly. -/
def analyze_image (primary fallback : ModelProvider) (use_fallback : Bool)
    (env : CallEnv) : Except String String :=
  match callFor env primary with
  | some (Except.ok s) => Except.ok s
  | some (Except.error e) =>
    if !use_fallback || fallback = ModelProvider.noneP then
      Except.error ("Primary model failed and no fallback configured: " ++ e)
    else
      fallbackStep env fallback
  | none =>
    if use_fallback && fallback ≠ ModelProvider.noneP then
      fallbackStep env fallback
    else
      Except.error "No models available or all attempts failed"

/-- `ImageHandler.SUPPORTED_FORMATS`. -/
def SUPPORTED_FORMATS : List String :=
  ["PNG", "JPEG", "JPG", "GIF", "WEBP", "BMP", "TIFF"]

/-- `ImageHandler.MAX_SIZE_MB`. -/
def MAX_SIZE_MB : Nat := 20

/-- Outcome of `PIL.Image.open` on a file: either the open raises, or the
file opens and the library reports the format detected from the image
header (possibly none). -/
inductive PILResult
  | openFail
  | opened (format : Option String)
  deriving DecidableEq, Repr

/-- Abstract state of a file as `ImageHandler.validate_image` observes it:
path existence, regular-file test, byte size, and the header-based open
outcome. The file's name/extension is carried separately and is never
consulted by the validation logic. -/
structure FileInfo where
  pathExists : Bool
  isRegularFile : Bool
  sizeBytes : Nat
  pil : PILResult
  extensionHint : String

/-- The format check `img.format not in SUPPORTED_FORMATS`: a missing
format (Python `None`) is not in the set. -/
def formatOk (fmt : Option String) : Bool :=
  match fmt with
  | some s => SUPPORTED_FORMATS.contains s
  | none => false

/-- The format the PIL open reported, if the open succeeded. -/
def pilFormat : PILResult → Option String
  | PILResult.openFail => none
  | PILResult.opened fmt => fmt

/-- `ImageHandler.validate_image`. The size test `file_size_mb > 20` with
`file_size_mb = st_size / (1024 * 1024)` in exact binary floating point is
equivalent to `st_size > 20 * 1024 * 1024` bytes (the divisor is a power
of two, so the division is exact for any realistic size). Error messages
are abbreviated where the original interpolates float formatting. -/
def validate_image (f : FileInfo) : Except String Bool :=
  if f.pathExists = false then
    Except.error "Image file not found"
  else if f.isRegularFile = false then
    Except.error "Path is not a file"
  else if MAX_SIZE_MB * 1024 * 1024 < f.sizeBytes then
    Except.error "Image file too large"
  else if f.pil = PILResult.openFail then
    Except.error "Failed to open image"
  else if formatOk (pilFormat f.pil) = false then
    Except.error "Unsupported image format"
  else
    Except.ok true

/-- Whether an `Except` is a success. -/
def isOkE (e : Except String Bool) : Bool :=
  match e with
  | Except.ok _ => true
  | Except.error _ => false

/-- `converter.ConverterResult`. -/
structure ConverterResult where
  latex_code : String
  content_type : ContentType
  raw_response : String
  is_valid : Bool
  validation_error : Option String
  deriving DecidableEq, Repr

/-- The pure tail of `ImageToLaTeXConverter.convert`, after the vision
model produced `raw_response` (lines 183 to 207 of `converter.py`):
extraction, content-type detection, optional validation, and result
assembly. -/
def convertPure (raw_response : String) (content_type : Option ContentType)
    (auto_detect validate_output : Bool) : ConverterResult :=
  let latex_code := extract_latex_code raw_response
  let detected_type :=
    if auto_detect || content_type.isNone then
      detect_content_type latex_code
    else
      content_type.getD ContentType.unknown
  let v :=
    if validate_output then validate_latex latex_code
    else (true, (none : Option String))
  { latex_code := latex_code
    content_type := detected_type
    raw_response := raw_response
    is_valid := v.1
    validation_error := v.2 }

/-! ### Helper lemmas about the string primitives -/

theorem isPre_append_ext (p a b : List Char) (h : isPre p a = true) :
    isPre p (a ++ b) = true := by
  induction p generalizing a with
  | nil => rfl
  | cons c cs ih =>
    cases a with
    | nil => simp [isPre] at h
    | cons x xs =>
      simp only [isPre, Bool.and_eq_true, beq_iff_eq] at h
      simp only [List.cons_append, isPre, Bool.and_eq_true, beq_iff_eq]
      exact ⟨h.1, ih xs h.2⟩

theorem exists_append_of_isPre (p l : List Char) (h : isPre p l = true) :
    ∃ r, l = p ++ r := by
  induction p generalizing l with
  | nil => exact ⟨l, rfl⟩
  | cons c cs ih =>
    cases l with
    | nil => simp [isPre] at h
    | cons x xs =>
      simp only [isPre, Bool.and_eq_true, beq_iff_eq] at h
      obtain ⟨r, hr⟩ := ih xs h.2
      exact ⟨r, by simp [h.1, hr]⟩

theorem isPre_self_append (p r : List Char) : isPre p (p ++ r) = true := by
  induction p with
  | nil => rfl
  | cons c cs ih => simp [isPre, ih]

theorem isPre_refl (p : List Char) : isPre p p = true := by
  simpa using isPre_self_append p []

theorem isPre_map (f : Char → Char) (p l : List Char) (h : isPre p l = true) :
    isPre (p.map f) (l.map f) = true := by
  induction p generalizing l with
  | nil => rfl
  | cons c cs ih =>
    cases l with
    | nil => simp [isPre] at h
    | cons x xs =>
      simp only [isPre, Bool.and_eq_true, beq_iff_eq] at h
      simp only [List.map_cons, isPre, Bool.and_eq_true, beq_iff_eq]
      exact ⟨by rw [h.1], ih xs h.2⟩

theorem hasSub_append_right (p a b : List Char) (h : hasSub p b = true) :
    hasSub p (a ++ b) = true := by
  induction a with
  | nil => simpa using h
  | cons c cs ih =>
    rw [List.cons_append, hasSub, ih, Bool.or_true]

theorem hasSub_of_isPre (p l : List Char) (hp : p ≠ []) (h : isPre p l = true) :
    hasSub p l = true := by
  cases l with
  | nil =>
    cases p with
    | nil => exact absurd rfl hp
    | cons c cs => simp [isPre] at h
  | cons x xs => rw [hasSub, h, Bool.true_or]

theorem hasSub_append_left (p a b : List Char) (h : hasSub p a = true) :
    hasSub p (a ++ b) = true := by
  induction a with
  | nil => simp [hasSub] at h
  | cons c cs ih =>
    rw [hasSub, Bool.or_eq_true] at h
    rw [List.cons_append, hasSub, Bool.or_eq_true]
    rcases h with h | h
    · exact Or.inl (by simpa using isPre_append_ext p (c :: cs) b h)
    · exact Or.inr (ih h)

theorem hasSub_of_isPre_trans (p q l : List Char) (hq : isPre q l = true)
    (h : hasSub p q = true) : hasSub p l = true := by
  obtain ⟨r, hr⟩ := exists_append_of_isPre q l hq
  rw [hr]
  exact hasSub_append_left p q r h

theorem hasSub_map (f : Char → Char) (p l : List Char) (h : hasSub p l = true) :
    hasSub (p.map f) (l.map f) = true := by
  induction l with
  | nil => simp [hasSub] at h
  | cons c cs ih =>
    rw [hasSub, Bool.or_eq_true] at h
    rw [List.map_cons, hasSub, Bool.or_eq_true]
    rcases h with h | h
    · exact Or.inl (by simpa using isPre_map f p (c :: cs) h)
    · exact Or.inr (ih h)

theorem isPre_append_split (p a b : List Char) (h : isPre p (a ++ b) = true) :
    isPre p a = true ∨ ∃ p₂, p = a ++ p₂ ∧ isPre p₂ b = true := by
  induction a generalizing p with
  | nil => exact Or.inr ⟨p, rfl, h⟩
  | cons x xs ih =>
    cases p with
    | nil => exact Or.inl rfl
    | cons q qs =>
      rw [List.cons_append] at h
      simp only [isPre, Bool.and_eq_true, beq_iff_eq] at h
      rcases ih qs h.2 with h' | ⟨p₂, hp₂, hb⟩
      · exact Or.inl (by simp [isPre, h.1, h'])
      · exact Or.inr ⟨p₂, by simp [h.1, hp₂], hb⟩

theorem hasSub_append_split (p a b : List Char) (hp : p ≠ [])
    (h : hasSub p (a ++ b) = true) :
    hasSub p a = true ∨ hasSub p b = true ∨
      ∃ p₁ p₂, p = p₁ ++ p₂ ∧ p₁ ≠ [] ∧ p₂ ≠ [] ∧
        (∃ s, s ++ p₁ = a) ∧ (∃ r, p₂ ++ r = b) := by
  induction a with
  | nil => exact Or.inr (Or.inl (by simpa using h))
  | cons x xs ih =>
    rw [List.cons_append, hasSub, Bool.or_eq_true] at h
    rcases h with h | h
    · rcases isPre_append_split p (x :: xs) b (by simpa using h) with hpre | ⟨p₂, hp₂, hb⟩
      · exact Or.inl (hasSub_of_isPre p (x :: xs) hp hpre)
      · by_cases hz : p₂ = []
        · subst hz
          rw [List.append_nil] at hp₂
          subst hp₂
          exact Or.inl (hasSub_of_isPre _ _ hp (isPre_refl _))
        · refine Or.inr (Or.inr ⟨x :: xs, p₂, hp₂, by simp, hz, ⟨[], rfl⟩, ?_⟩)
          obtain ⟨r, hr⟩ := exists_append_of_isPre p₂ b hb
          exact ⟨r, hr.symm⟩
    · rcases ih h with h' | h' | ⟨p₁, p₂, hpp, h1, h2, ⟨s, hs⟩, hr⟩
      · exact Or.inl (by rw [hasSub, h', Bool.or_true])
      · exact Or.inr (Or.inl h')
      · exact Or.inr (Or.inr ⟨p₁, p₂, hpp, h1, h2, ⟨x :: s, by rw [← hs]; rfl⟩, hr⟩)

theorem hasSub_append_head (p a b : List Char) (d : Char) (hp : p ≠ [])
    (hb : b.head? = some d) (hd : d ∉ p)
    (ha : hasSub p a = false) (hbb : hasSub p b = false) :
    hasSub p (a ++ b) = false := by
  by_contra hcon
  rw [Bool.not_eq_false] at hcon
  rcases hasSub_append_split p a b hp hcon with h | h | ⟨p₁, p₂, hpp, h1, h2, _, ⟨r, hr⟩⟩
  · simp [h] at ha
  · simp [h] at hbb
  · cases p₂ with
    | nil => exact h2 rfl
    | cons e es =>
      rw [← hr, List.cons_append, List.head?_cons] at hb
      have he : e = d := by injection hb
      apply hd
      rw [hpp, ← he]
      exact List.mem_append_right p₁ (List.mem_cons_self e es)

theorem hasSub_append_last (p a a' b : List Char) (d : Char) (hp : p ≠ [])
    (hsplit : a = a' ++ [d]) (hd : d ∉ p)
    (ha : hasSub p a = false) (hbb : hasSub p b = false) :
    hasSub p (a ++ b) = false := by
  by_contra hcon
  rw [Bool.not_eq_false] at hcon
  rcases hasSub_append_split p a b hp hcon with h | h | ⟨p₁, p₂, hpp, h1, h2, ⟨s, hs⟩, _⟩
  · simp [h] at ha
  · simp [h] at hbb
  · rcases List.eq_nil_or_concat p₁ with h0 | ⟨q, e, hq⟩
    · exact h1 h0
    · rw [List.concat_eq_append] at hq
      rw [hq, ← List.append_assoc] at hs
      rw [hsplit] at hs
      have := (List.append_inj' hs rfl).2
      have he : e = d := by injection this
      apply hd
      rw [hpp, hq, ← he]
      exact List.mem_append_left p₂ (List.mem_append_right q (List.mem_singleton.mpr rfl))

theorem removeAllL_of_not_hasSub (pat l : List Char) (fuel : Nat)
    (h : hasSub pat l = false) : removeAllL pat fuel l = l := by
  induction fuel generalizing l with
  | zero => cases l <;> rfl
  | succ n ih =>
    cases l with
    | nil => rfl
    | cons c cs =>
      rw [hasSub, Bool.or_eq_false_iff] at h
      rw [removeAllL, if_neg (by simp [h.1]), ih cs h.2]

theorem removeAllS_of_not_hasSub (s pat : String) (h : hasSubS pat s = false) :
    removeAllS s pat = s := by
  unfold removeAllS
  unfold hasSubS at h
  rw [removeAllL_of_not_hasSub _ _ _ h]

/-- The loop of `extract_latex_code` captures nothing when no line of the
input triggers LaTeX capture. -/
theorem extractLoop_no_trigger (lines : List String)
    (h : ∀ l ∈ lines, lineTriggers l = false) :
    extractLoop lines false [] = [] := by
  induction lines with
  | nil => rfl
  | cons line rest ih =>
    have ht := h line (List.mem_cons_self line rest)
    have hr : ∀ l ∈ rest, lineTriggers l = false :=
      fun l hl => h l (List.mem_cons_of_mem line hl)
    by_cases hs : lineSkips line
    · simp [extractLoop, hs, ih hr]
    · simp [extractLoop, hs, ht, ih hr]

/-- `validate_latex` returns either success with no message or failure
with a non-empty message. -/
theorem validate_latex_cases (s : String) :
    validate_latex s = (true, none) ∨
      ∃ m, validate_latex s = (false, some m) ∧ m ≠ "" := by
  unfold validate_latex
  split_ifs with h1 h2 h3
  · exact Or.inr ⟨_, rfl, by decide⟩
  · exact Or.inr ⟨_, rfl, by decide⟩
  · exact Or.inr ⟨_, rfl, by decide⟩
  · cases hf : (scanBegins s).find? (fun env => !(scanEnds s).contains env) with
    | none => exact Or.inl rfl
    | some env =>
      refine Or.inr ⟨_, rfl, ?_⟩
      intro hcon
      have := congrArg String.data hcon
      simp [String.data_append] at this

/-! ### Claims -/

/-- C2, counterexample to the claim as stated: on the input
composed of a bare fence, a plain line `hello`, and a closing fence, no
line of the fence-stripped text begins with a backslash or dollar sign,
yet `extract_latex_code` returns `hello` — the fence-stripped text
trimmed — and not the original input trimmed of whitespace (which still
carries the fences). -/
theorem c2_counterexample :
    noTriggerLines "```\nhello\n```" = true ∧
      extract_latex_code "```\nhello\n```" = "hello" ∧
      pyStrip "```\nhello\n```" = "```\nhello\n```" ∧
      ("hello" : String) ≠ "```\nhello\n```" :=
  ⟨by decide, by decide, by decide, by decide⟩

/-- C2 (amended): when no line of the fence-stripped input begins with a
backslash or dollar sign after stripping, `extract_latex_code` returns
the fence-stripped input trimmed of whitespace (equal to the original
input trimmed only when the input contains no fence markers). -/
theorem c2_extract_fallback (text : String) (h : noTriggerLines text = true) :
    extract_latex_code text = pyStrip (stripFences text) := by
  unfold noTriggerLines at h
  rw [List.all_eq_true] at h
  have h' : ∀ l ∈ splitLines (stripFences text), lineTriggers l = false := by
    intro l hl
    simpa using h l hl
  simp only [extract_latex_code]
  rw [extractLoop_no_trigger _ h']
  rfl

/-- Witness for C2 (amended) at a concrete non-LaTeX input. -/
theorem c2_extract_fallback_witness :
    noTriggerLines "just plain text" = true ∧
      extract_latex_code "just plain text" = pyStrip (stripFences "just plain text") :=
  ⟨by decide, c2_extract_fallback "just plain text" (by decide)⟩

/-- C4: `validate_latex` accepts the count-balanced but incorrectly
nested input, and in general any input whose braces and brackets are
count-balanced and whose per-name begin/end occurrence counts coincide
is reported valid — nesting order is never distinguished. -/
theorem c4_count_balanced_accepted :
    validate_latex "\\begin\x7ba\x7d\\begin\x7bb\x7d\\end\x7ba\x7d\\end\x7bb\x7d"
        = (true, none) ∧
      ∀ s : String, countChar s '\x7b' = countChar s '\x7d' →
        countChar s '[' = countChar s ']' →
        (∀ n : String, (scanBegins s).count n = (scanEnds s).count n) →
        validate_latex s = (true, none) := by
  constructor
  · decide
  · intro s h1 h2 h3
    have hperm : (scanBegins s).Perm (scanEnds s) := List.perm_iff_count.mpr h3
    unfold validate_latex
    rw [if_neg (by simp [h1]), if_neg (by simp [h2]),
      if_neg (by simp [hperm.length_eq])]
    have hfind : (scanBegins s).find?
        (fun env => !(scanEnds s).contains env) = none := by
      rw [List.find?_eq_none]
      intro x hx
      have hmem : x ∈ scanEnds s := hperm.mem_iff.mp hx
      simp [hmem]
    rw [hfind]

/-- Witness for the universally quantified part of C4. -/
theorem c4_count_balanced_accepted_witness :
    validate_latex "\\begin\x7bx\x7d\\end\x7bx\x7d" = (true, none) :=
  c4_count_balanced_accepted.2 "\\begin\x7bx\x7d\\end\x7bx\x7d"
    (by decide) (by decide) (fun _ => rfl)

/-- C5: `detect_content_type` gives the document check precedence over
the table check: any string containing both `\documentclass` and
`\begin{tabular}` classifies as document, never table. -/
theorem c5_classifier_precedence (s : String)
    (h1 : hasSubS "\\documentclass" s = true)
    (_h2 : hasSubS "\\begin\x7btabular\x7d" s = true) :
    detect_content_type s = ContentType.document ∧
      detect_content_type s ≠ ContentType.table := by
  have hl : hasSubS "\\documentclass" (lowerS s) = true := by
    unfold hasSubS at h1 ⊢
    have hm := hasSub_map Char.toLower _ _ h1
    rw [show ("\\documentclass".data.map Char.toLower) = "\\documentclass".data
      from by decide] at hm
    exact hm
  have hdoc : detect_content_type s = ContentType.document := by
    simp [detect_content_type, hl]
  exact ⟨hdoc, by simp [hdoc]⟩

/-- Witness for C5 at a concrete string containing both markers. -/
theorem c5_classifier_precedence_witness :
    detect_content_type "\\documentclass\x7barticle\x7d\n\\begin\x7btabular\x7d\x7bc\x7d"
        = ContentType.document ∧
      detect_content_type "\\documentclass\x7barticle\x7d\n\\begin\x7btabular\x7d\x7bc\x7d"
        ≠ ContentType.table :=
  c5_classifier_precedence "\\documentclass\x7barticle\x7d\n\\begin\x7btabular\x7d\x7bc\x7d"
    (by decide) (by decide)

/-- C6: the validator's concrete behaviour on the three spec examples:
a balanced fraction is valid; a missing closing brace yields the
brace-mismatch message; an unmatched `\begin{equation}` yields an
environment message; and the two failure messages are distinct. -/
theorem c6_validator_examples :
    validate_latex "\\frac\x7ba\x7d\x7bb\x7d" = (true, none) ∧
      validate_latex "\\frac\x7ba\x7d\x7bb"
        = (false, some "Unbalanced braces: \x7b\x7d count mismatch") ∧
      validate_latex "\\begin\x7bequation\x7d E=mc^2"
        = (false,
          some "Unbalanced environments: \\begin\x7b\x7d and \\end\x7b\x7d count mismatch") ∧
      ("Unbalanced braces: \x7b\x7d count mismatch" : String)
        ≠ "Unbalanced environments: \\begin\x7b\x7d and \\end\x7b\x7d count mismatch" :=
  ⟨by decide, by decide, by decide, by decide⟩

/-- C10: the environment scans only count `\begin`/`\end` whose name is
made of word characters: `align*` is counted by neither scan, so the
unclosed starred environment with balanced braces is reported valid. -/
theorem c10_starred_env_not_counted :
    isWordChar '*' = false ∧
      scanBegins "\\begin\x7balign*\x7d x = y" = [] ∧
      scanEnds "\\begin\x7balign*\x7d x = y" = [] ∧
      validate_latex "\\begin\x7balign*\x7d x = y" = (true, none) :=
  ⟨by decide, by decide, by decide, by decide⟩

/-- C3: every result assembled by `convert` satisfies the invariant:
invalid results carry a non-empty validation message, valid results carry
none — for any raw vision-model response, declared content type,
auto-detect flag and validation setting. -/
theorem c3_result_invariant (raw : String) (ct : Option ContentType)
    (ad vo : Bool) :
    ((convertPure raw ct ad vo).is_valid = false →
      ∃ m, (convertPure raw ct ad vo).validation_error = some m ∧ m ≠ "") ∧
      ((convertPure raw ct ad vo).is_valid = true →
        (convertPure raw ct ad vo).validation_error = none) := by
  have e1 : (convertPure raw ct ad vo).is_valid
      = (if vo then validate_latex (extract_latex_code raw)
          else (true, (none : Option String))).1 := rfl
  have e2 : (convertPure raw ct ad vo).validation_error
      = (if vo then validate_latex (extract_latex_code raw)
          else (true, (none : Option String))).2 := rfl
  have hv : (if vo then validate_latex (extract_latex_code raw)
        else (true, (none : Option String))) = (true, (none : Option String)) ∨
      ∃ m, (if vo then validate_latex (extract_latex_code raw)
        else (true, (none : Option String))) = (false, some m) ∧ m ≠ "" := by
    cases vo with
    | false => exact Or.inl rfl
    | true => simpa using validate_latex_cases (extract_latex_code raw)
  rcases hv with h | ⟨m, h, hm⟩
  · rw [e1, e2, h]
    exact ⟨fun hcon => absurd hcon (by decide), fun _ => rfl⟩
  · rw [e1, e2, h]
    exact ⟨fun _ => ⟨m, rfl, hm⟩, fun hcon => absurd hcon (by simp)⟩

/-- Witness for C3 at a concrete invalid response (missing brace). -/
theorem c3_result_invariant_witness :
    (convertPure "\\frac\x7ba\x7d\x7bb" none true true).is_valid = false ∧
      ∃ m, (convertPure "\\frac\x7ba\x7d\x7bb" none true true).validation_error
          = some m ∧ m ≠ "" :=
  ⟨by decide, (c3_result_invariant "\\frac\x7ba\x7d\x7bb" none true true).1 (by decide)⟩

/-- C1: when the primary provider is configured, a distinct fallback
provider is configured, fallback is allowed, and both calls raise,
`analyze_image` raises the single aggregated error whose message states
that both the primary and the fallback model failed and carries the
fallback failure's message. -/
theorem c1_fallback_aggregated_error (env : CallEnv)
    (primary fallback : ModelProvider) (ep ef : String)
    (hp : primary ≠ ModelProvider.noneP) (hf : fallback ≠ ModelProvider.noneP)
    (hd : fallback ≠ primary)
    (hpe : env primary = Except.error ep) (hfe : env fallback = Except.error ef) :
    analyze_image primary fallback true env =
        Except.error ("Both primary and fallback models failed. Last error: " ++ ef) ∧
      hasSubS "primary"
        ("Both primary and fallback models failed. Last error: " ++ ef) = true ∧
      hasSubS "fallback"
        ("Both primary and fallback models failed. Last error: " ++ ef) = true := by
  have hcp : callFor env primary = some (Except.error ep) := by
    cases primary with
    | claude => simp [callFor, hpe]
    | openai => simp [callFor, hpe]
    | noneP => exact absurd rfl hp
  have hdata : ("Both primary and fallback models failed. Last error: " ++ ef).data
      = "Both primary and fallback models failed. Last error: ".data ++ ef.data := by
    simp [String.data_append]
  have step1 : analyze_image primary fallback true env = fallbackStep env fallback := by
    unfold analyze_image
    rw [hcp]
    simp [hf]
  have step2 : fallbackStep env fallback =
      Except.error ("Both primary and fallback models failed. Last error: " ++ ef) := by
    cases fallback with
    | noneP => exact absurd rfl hf
    | claude => simp [fallbackStep, callFor, hfe]
    | openai => simp [fallbackStep, callFor, hfe]
  refine ⟨step1.trans step2, ?_, ?_⟩
  · unfold hasSubS
    rw [hdata]
    exact hasSub_append_left _ _ _ (by decide)
  · unfold hasSubS
    rw [hdata]
    exact hasSub_append_left _ _ _ (by decide)

/-- Witness for C1 with both providers failing with message `boom`. -/
theorem c1_fallback_aggregated_error_witness :
    analyze_image ModelProvider.claude ModelProvider.openai true
        (fun _ => Except.error "boom")
      = Except.error ("Both primary and fallback models failed. Last error: " ++ "boom") :=
  (c1_fallback_aggregated_error (fun _ => Except.error "boom")
    ModelProvider.claude ModelProvider.openai "boom" "boom"
    (by decide) (by decide) (by decide) rfl rfl).1

/-- C9: `validate_image` rejects every file whose size exceeds the
configured maximum (20 MB by default), rejects every file whose
header-detected format is outside the supported set, and never consults
the file's extension. -/
theorem c9_validate_image_rejects (f : FileInfo) :
    (MAX_SIZE_MB * 1024 * 1024 < f.sizeBytes → isOkE (validate_image f) = false) ∧
      (∀ fmt, f.pil = PILResult.opened fmt → formatOk fmt = false →
        isOkE (validate_image f) = false) ∧
      (∀ e : String, validate_image { f with extensionHint := e } = validate_image f) := by
  refine ⟨?_, ?_, fun e => rfl⟩
  · intro hsize
    unfold validate_image
    split_ifs <;> rfl
  · intro fmt hpil hfmt
    unfold validate_image
    split_ifs with h1 h2 h3 h4 h5 <;> try rfl
    rw [hpil] at h5
    simp [pilFormat] at h5
    rw [h5] at hfmt
    simp at hfmt

/-- Witness for C9 at a 30 MB PNG file. -/
theorem c9_validate_image_rejects_witness :
    isOkE (validate_image
        ⟨true, true, 30000000, PILResult.opened (some "PNG"), "png"⟩) = false :=
  (c9_validate_image_rejects
    ⟨true, true, 30000000, PILResult.opened (some "PNG"), "png"⟩).1 (by decide)

/-- C7, counterexample to the claim as stated: the input `\$[` contains
no `\\` and no `align`, and the display output of `wrap_equation` on it
contains no `align` either — yet the delimiter-stripping pass removes the
`$` and leaves a residual `\[` inside the first output, which the second
application then strips, so applying twice differs from applying once. -/
theorem c7_counterexample :
    hasSubS "\\\\" "\\$[" = false ∧
      hasSubS "align" (lowerS "\\$[") = false ∧
      hasSubS "align" (lowerS (wrap_equation "\\$[" false)) = false ∧
      wrap_equation (wrap_equation "\\$[" false) false ≠ wrap_equation "\\$[" false :=
  ⟨by decide, by decide, by decide, by decide⟩

/-- C7 (amended): display wrapping is idempotent provided the first
application's output contains no `\\`, no `align`, and no residual math
delimiters — that is, the delimiter-stripping pass leaves the first
output unchanged. -/
theorem c7_wrap_display_idempotent (x y : String)
    (hy : wrap_equation x false = y)
    (hclean : cleanMathCode y = y)
    (hbs : hasSubS "\\\\" y = false)
    (hal : hasSubS "align" (lowerS y) = false) :
    wrap_equation y false = y := by
  have hy0 : wrapDisplay (cleanMathCode x) = y := hy
  have hy' : (if hasSubS "\\\\" (cleanMathCode x)
        || hasSubS "align" (lowerS (cleanMathCode x)) then
      if startsWithS "\\begin\x7balign" (cleanMathCode x) then cleanMathCode x
      else "\\begin\x7balign\x7d\n" ++ cleanMathCode x ++ "\n\\end\x7balign\x7d"
    else
      if startsWithS "\\begin\x7bequation" (cleanMathCode x) then cleanMathCode x
      else "\\begin\x7bequation\x7d\n" ++ cleanMathCode x ++ "\n\\end\x7bequation\x7d") = y := by
    rw [← hy0]
    rfl
  have hstart : startsWithS "\\begin\x7bequation" y = true := by
    by_cases hc : (hasSubS "\\\\" (cleanMathCode x)
        || hasSubS "align" (lowerS (cleanMathCode x))) = true
    · exfalso
      rw [if_pos hc] at hy'
      by_cases hsa : startsWithS "\\begin\x7balign" (cleanMathCode x) = true
      · rw [if_pos hsa] at hy'
        have halign : hasSubS "align" (lowerS y) = true := by
          rw [← hy']
          unfold hasSubS startsWithS at *
          have hpre := isPre_map Char.toLower _ _ hsa
          rw [show ("\\begin\x7balign".data.map Char.toLower)
            = "\\begin\x7balign".data from by decide] at hpre
          exact hasSub_of_isPre_trans _ _ _ hpre (by decide)
        rw [halign] at hal
        cases hal
      · rw [if_neg hsa] at hy'
        have halign : hasSubS "align" (lowerS y) = true := by
          rw [← hy']
          unfold hasSubS
          have hdata : (lowerS ("\\begin\x7balign\x7d\n" ++ cleanMathCode x
              ++ "\n\\end\x7balign\x7d")).data
              = ("\\begin\x7balign\x7d\n".data.map Char.toLower
                  ++ (cleanMathCode x).data.map Char.toLower)
                ++ "\n\\end\x7balign\x7d".data.map Char.toLower := by
            simp [lowerS, String.data_append]
          rw [hdata]
          exact hasSub_append_left _ _ _ (hasSub_append_left _ _ _ (by decide))
        rw [halign] at hal
        cases hal
    · rw [if_neg hc] at hy'
      by_cases hse : startsWithS "\\begin\x7bequation" (cleanMathCode x) = true
      · rw [if_pos hse] at hy'
        rw [← hy']
        exact hse
      · rw [if_neg hse] at hy'
        rw [← hy']
        unfold startsWithS
        have hdata : ("\\begin\x7bequation\x7d\n" ++ cleanMathCode x
            ++ "\n\\end\x7bequation\x7d").data
            = ("\\begin\x7bequation\x7d\n".data ++ (cleanMathCode x).data)
              ++ "\n\\end\x7bequation\x7d".data := by
          simp [String.data_append]
        rw [hdata]
        exact isPre_append_ext _ _ _ (isPre_append_ext _ _ _ (by decide))
  have e : wrap_equation y false = wrapDisplay (cleanMathCode y) := rfl
  rw [e, hclean]
  unfold wrapDisplay
  rw [hbs, hal]
  simp [hstart]

/-- Witness for C7 (amended): the display wrap of `E = mc^2` is a fixed
point of a second application. -/
theorem c7_wrap_display_idempotent_witness :
    wrap_equation (wrap_equation "E = mc^2" false) false
      = wrap_equation "E = mc^2" false :=
  c7_wrap_display_idempotent "E = mc^2" (wrap_equation "E = mc^2" false)
    rfl (by decide) (by decide) (by decide)

/-- Without a truthy title, `create_full_document` (for the default
`article` class) is the fixed header, the content, and the fixed
footer. -/
theorem cfd_no_title (content : String) (title author : Option String)
    (h : optTruthy title = false) :
    create_full_document content title author "article"
      = noTitleHeader ++ (content ++ docFooter) := by
  have e : create_full_document content title author "article"
      = ((noTitleHeader ++ content) ++ "\n\n") ++ "\\end\x7bdocument\x7d\n" := by
    unfold create_full_document
    rw [h]
    rfl
  rw [e]
  apply String.ext
  simp only [String.data_append]
  rw [List.append_assoc, List.append_assoc]
  rw [show ("\n\n".data ++ "\\end\x7bdocument\x7d\n".data : List Char)
    = docFooter.data from by decide]

set_option maxRecDepth 16384 in
/-- C8: the full document for content `Body`, title `T`, author `A`
contains, in order, the documentclass declaration, the six fixed package
lines, the document opener, the title, author and maketitle lines, the
content, and the document closer; and with no (truthy) title the author
and maketitle lines are not emitted, for any content and author. -/
theorem c8_create_full_document :
    inOrderS ["\\documentclass", "\\usepackage\x7bamsmath\x7d",
        "\\usepackage\x7bamssymb\x7d", "\\usepackage\x7bamsfonts\x7d",
        "\\usepackage\x7bgraphicx\x7d", "\\usepackage\x7bbooktabs\x7d",
        "\\usepackage\x7btikz\x7d", "\\begin\x7bdocument\x7d",
        "\\title\x7bT\x7d", "\\author\x7bA\x7d", "\\maketitle", "Body",
        "\\end\x7bdocument\x7d"]
      (create_full_document "Body" (some "T") (some "A") "article") = true ∧
    (∀ (content : String) (author title : Option String),
      optTruthy title = false →
      create_full_document content title author "article"
        = create_full_document content title none "article") ∧
    (∀ (content : String) (author title : Option String),
      optTruthy title = false →
      hasSubS "\\maketitle" content = false →
      hasSubS "\\maketitle" (create_full_document content title author "article")
        = false) ∧
    (∀ (content : String) (author title : Option String),
      optTruthy title = false →
      hasSubS "\\author" content = false →
      hasSubS "\\author" (create_full_document content title author "article")
        = false) := by
  refine ⟨by decide, ?_, ?_, ?_⟩
  · intro content author title h
    rw [cfd_no_title content title author h, cfd_no_title content title none h]
  · intro content author title h hc
    rw [cfd_no_title content title author h]
    unfold hasSubS at hc ⊢
    rw [show (noTitleHeader ++ (content ++ docFooter)).data
      = noTitleHeader.data ++ (content.data ++ docFooter.data) from by
        simp [String.data_append]]
    refine hasSub_append_last _ _ noTitleHeaderInit.data _ '\n' (by decide)
      (by decide) (by decide) (by decide) ?_
    exact hasSub_append_head _ _ _ '\n' (by decide) rfl (by decide) hc (by decide)
  · intro content author title h hc
    rw [cfd_no_title content title author h]
    unfold hasSubS at hc ⊢
    rw [show (noTitleHeader ++ (content ++ docFooter)).data
      = noTitleHeader.data ++ (content.data ++ docFooter.data) from by
        simp [String.data_append]]
    refine hasSub_append_last _ _ noTitleHeaderInit.data _ '\n' (by decide)
      (by decide) (by decide) (by decide) ?_
    exact hasSub_append_head _ _ _ '\n' (by decide) rfl (by decide) hc (by decide)

/-- Witness for C8: with no title, the generated document for content
`Body` contains no maketitle line even when an author is supplied. -/
theorem c8_create_full_document_witness :
    hasSubS "\\maketitle" (create_full_document "Body" none (some "A") "article")
      = false :=
  c8_create_full_document.2.2.1 "Body" (some "A") none (by decide) (by decide)

end ImageToTex
